import Mathlib

set_option autoImplicit false

/-!
Verification of the query driver in builtin/check-ignore.c.

Paths, patterns and output records are modelled as byte strings
(lists of natural numbers, one entry per byte).  The external
collaborators of the driver (prefix joining, gitlink and symlink
boundary validation, index membership, and the ignore-rule matcher
last_exclude_matching) are modelled as an explicit record of oracle
functions, mirroring the C call sites: last_exclude_matching receives
the canonical path together with the current value of the dtype hint
variable and may return an updated hint, because the C code passes
the address of a dtype variable that is declared once, outside the
per-path loop.

The C-style quoting and unquoting routines live in quote.c, which is
not part of the available source; they are modelled from the spec
(section 4.4: special and non-printable bytes are escaped with a
C-style escaping scheme so that records round-trip when dequoted).
-/

deriving instance DecidableEq for Except

namespace CheckIgnore

/-- A byte string: one natural number per byte. -/
abbrev Bytes := List Nat

/-- The fields of struct exclude used by the driver: source file name
(el src), source line (srcpos), the pattern text, and the two flag
bits EXC_FLAG_NEGATIVE and EXC_FLAG_MUSTBEDIR. -/
structure Exclude where
  src : Bytes
  srcpos : Nat
  pattern : Bytes
  negative : Bool
  mustbedir : Bool
deriving DecidableEq

/-- The five file-scope option flags of check-ignore.c (lines 8 and 15). -/
structure Opts where
  quiet : Bool
  verbose : Bool
  stdin_paths : Bool
  null_term_line : Bool
  show_non_matching : Bool
deriving DecidableEq

/-- The external collaborators, as called from check-ignore.c.
prefix_path joins the invocation prefix with a raw argument;
check_path_for_gitlink validates the joined path against nested
repository boundaries and either dies or returns the validated path;
die_if_path_beyond_symlink dies (some message) or passes (none);
find_pathspecs_matching_against_index returns one membership flag per
pathspec entry; last_exclude_matching receives the canonical path and
the current dtype hint and returns the best matching rule, if any,
together with the possibly updated hint (the C function receives the
address of the dtype variable). -/
structure Oracles where
  prefix_path : Option Bytes → Bytes → Bytes
  check_path_for_gitlink : Bytes → Except String Bytes
  die_if_path_beyond_symlink : Bytes → Option Bytes → Option String
  find_pathspecs_matching_against_index : List Bytes → List Bool
  last_exclude_matching : Bytes → Nat → Option Exclude × Nat

/-- DT_UNKNOWN, the initial value of the dtype hint. -/
def DT_UNKNOWN : Nat := 0

/-- Decimal rendering of a number, as printf %d produces for a
nonnegative int, one byte per digit. -/
def decBytes (n : Nat) : Bytes :=
  (Nat.toDigits 10 n).map Char.toNat

/-- Modelled from the spec: a byte needs C-style escaping when it is
the double quote (34), the backslash (92), a control byte (below 32)
or a byte at or above 127. quote.c is not in the available source. -/
def cq_needs (b : Nat) : Bool :=
  b == 34 || b == 92 || b < 32 || 127 ≤ b

/-- Modelled from the spec: the C-style escape sequence of one byte
that needs escaping; named escapes for the common control bytes,
backslash plus exactly three octal digits otherwise. -/
def cq_escape (b : Nat) : Bytes :=
  if b = 34 then [92, 34]
  else if b = 92 then [92, 92]
  else if b = 7 then [92, 97]
  else if b = 8 then [92, 98]
  else if b = 9 then [92, 116]
  else if b = 10 then [92, 110]
  else if b = 11 then [92, 118]
  else if b = 12 then [92, 102]
  else if b = 13 then [92, 114]
  else [92, 48 + b / 64 % 8, 48 + b / 8 % 8, 48 + b % 8]

/-- Modelled from the spec: the escaped body of a byte string, with
bytes that need no escaping copied verbatim. -/
def quote_body : Bytes → Bytes
  | [] => []
  | b :: bs => (if cq_needs b then cq_escape b else [b]) ++ quote_body bs

/-- Modelled from the spec: quote_c_style from quote.c. When any byte
needs escaping the whole string is surrounded by double quotes and
escaped; otherwise it is written as-is. -/
def quote_c_style (p : Bytes) : Bytes :=
  if p.any cq_needs then [34] ++ quote_body p ++ [34] else p

/-- Modelled from the spec: write_name_quoted from quote.c, which
writes the possibly quoted name followed by the terminator byte. -/
def write_name_quoted (p : Bytes) (terminator : Nat) : Bytes :=
  quote_c_style p ++ [terminator]

/-- Modelled from the spec: the scanning loop of unquote_c_style,
reading bytes after the opening double quote.  A closing double quote
ends the string; a backslash starts an escape (named escapes, or
exactly three octal digits); anything else is copied verbatim; running
out of input before the closing quote is an error. -/
def unq : Bytes → Option Bytes
  | [] => none
  | b :: bs =>
    if b = 34 then some []
    else if b = 92 then
      match bs with
      | [] => none
      | e :: bs2 =>
        if e = 34 then (unq bs2).map (fun t => 34 :: t)
        else if e = 92 then (unq bs2).map (fun t => 92 :: t)
        else if e = 97 then (unq bs2).map (fun t => 7 :: t)
        else if e = 98 then (unq bs2).map (fun t => 8 :: t)
        else if e = 116 then (unq bs2).map (fun t => 9 :: t)
        else if e = 110 then (unq bs2).map (fun t => 10 :: t)
        else if e = 118 then (unq bs2).map (fun t => 11 :: t)
        else if e = 102 then (unq bs2).map (fun t => 12 :: t)
        else if e = 114 then (unq bs2).map (fun t => 13 :: t)
        else if 48 ≤ e ∧ e ≤ 55 then
          match bs2 with
          | d2 :: d3 :: bs3 =>
            if 48 ≤ d2 ∧ d2 ≤ 55 ∧ 48 ≤ d3 ∧ d3 ≤ 55 then
              (unq bs3).map (fun t => ((e - 48) * 64 + (d2 - 48) * 8 + (d3 - 48)) :: t)
            else none
          | _ => none
        else none
    else (unq bs).map (fun t => b :: t)

/-- Modelled from the spec: unquote_c_style from quote.c.  The input
must begin with a double quote; the result is the unescaped body. -/
def unquote_c_style (l : Bytes) : Option Bytes :=
  match l with
  | 34 :: rest => unq rest
  | _ => none

/-- The dequoting step applied to one stdin record, lines 116 to 121:
in newline mode a line whose first byte is the double quote is passed
through unquote_c_style, and a failure is the fatal error
"line is badly quoted"; in NUL-terminated mode (line_termination = 0)
the line is taken verbatim. -/
def stdin_line_path (null_term : Bool) (l : Bytes) : Except String Bytes :=
  if !null_term ∧ l.head? = some 34 then
    match unquote_c_style l with
    | none => Except.error "line is badly quoted"
    | some p => Except.ok p
  else Except.ok l

/-- output_exclude, lines 30 to 64: the bytes of one output record for
a path and its verdict, under the current option flags. -/
def output_exclude (opts : Opts) (path : Bytes) (exclude : Option Exclude) : Bytes :=
  let bang : Bytes :=
    match exclude with
    | some e => if e.negative then [33] else []
    | none => []
  let slash : Bytes :=
    match exclude with
    | some e => if e.mustbedir then [47] else []
    | none => []
  if !opts.null_term_line then
    if !opts.verbose then
      write_name_quoted path 10
    else
      (match exclude with
       | some e =>
         quote_c_style e.src ++ [58] ++ decBytes e.srcpos ++ [58]
           ++ bang ++ e.pattern ++ slash ++ [9]
       | none => [58, 58, 9])
        ++ quote_c_style path ++ [10]
  else
    if !opts.verbose then
      path ++ [0]
    else
      match exclude with
      | some e =>
        e.src ++ [0] ++ decBytes e.srcpos ++ [0]
          ++ bang ++ e.pattern ++ slash ++ [0] ++ path ++ [0]
      | none => [0, 0, 0] ++ path ++ [0]

/-- The observable outcome of one iteration of the loop in
check_ignore: the verdict (the exclude variable), the value of the
dtype variable after the iteration, the oracle queries made (canonical
path and hint passed), and the stdout records emitted. -/
structure StepOut where
  exclude : Option Exclude
  dtype : Nat
  queries : List (Bytes × Nat)
  records : List Bytes
deriving DecidableEq

/-- One iteration of the loop in check_ignore, lines 86 to 100: join
the prefix, validate gitlink and symlink boundaries (either may die),
query the ignore-rule oracle only when the membership flag is false,
then emit at most one record for the original raw path. -/
def check_ignore_step (O : Oracles) (opts : Opts) (pfx : Option Bytes)
    (path : Bytes) (seen_i : Bool) (dtype : Nat) : Except String StepOut :=
  match O.check_path_for_gitlink (O.prefix_path pfx path) with
  | Except.error m => Except.error m
  | Except.ok full_path =>
    match O.die_if_path_beyond_symlink full_path pfx with
    | some m => Except.error m
    | none =>
      let ed : Option Exclude × Nat :=
        if !seen_i then O.last_exclude_matching full_path dtype
        else (none, dtype)
      let queries : List (Bytes × Nat) :=
        if !seen_i then [(full_path, dtype)] else []
      let records : List Bytes :=
        if !opts.quiet && (ed.1.isSome || opts.show_non_matching) then
          [output_exclude opts path ed.1]
        else []
      Except.ok ⟨ed.1, ed.2, queries, records⟩

/-- The accumulated outcome of check_ignore (and of a whole run of the
stdin loop): the num_ignored counter, the final value of the dtype
variable, the verdict of every decided path in order, all oracle
queries, all stdout records, all stderr diagnostics, and whether the
empty-pathspec branch (lines 74 to 78) was ever taken. -/
structure CIOut where
  num_ignored : Nat
  dtypeEnd : Nat
  verdicts : List (Option Exclude)
  queries : List (Bytes × Nat)
  records : List Bytes
  errOut : List String
  emptyDiag : Bool
deriving DecidableEq

/-- The loop of check_ignore, lines 86 to 100, iterating over the
pathspec with index i and threading the dtype variable, which is
declared once before the loop (line 71). -/
def check_ignore_loop (O : Oracles) (opts : Opts) (pfx : Option Bytes)
    (seen : List Bool) : List Bytes → Nat → Nat → Except String CIOut
  | [], _, dtype => Except.ok ⟨0, dtype, [], [], [], [], false⟩
  | p :: rest, i, dtype =>
    match check_ignore_step O opts pfx p (seen.getD i false) dtype with
    | Except.error m => Except.error m
    | Except.ok st =>
      match check_ignore_loop O opts pfx seen rest (i + 1) st.dtype with
      | Except.error m => Except.error m
      | Except.ok r =>
        Except.ok ⟨(if st.exclude.isSome then 1 else 0) + r.num_ignored,
                   r.dtypeEnd,
                   st.exclude :: r.verdicts,
                   st.queries ++ r.queries,
                   st.records ++ r.records,
                   r.errOut,
                   r.emptyDiag⟩

/-- check_ignore, lines 66 to 104: an empty pathspec takes the
diagnostic branch (stderr message unless quiet, zero matches);
otherwise the index membership oracle is queried once over the whole
batch and the loop runs with dtype initialized to DT_UNKNOWN. -/
def check_ignore (O : Oracles) (opts : Opts) (pfx : Option Bytes)
    (pathspec : List Bytes) : Except String CIOut :=
  if pathspec.isEmpty then
    Except.ok ⟨0, DT_UNKNOWN, [], [], [],
               if !opts.quiet then ["no pathspec given."] else [],
               true⟩
  else
    let seen := O.find_pathspecs_matching_against_index pathspec
    check_ignore_loop O opts pfx seen pathspec 0 DT_UNKNOWN

/-- Combination of the outcomes of two consecutive stdin records. -/
def combineCI (a b : CIOut) : CIOut :=
  ⟨a.num_ignored + b.num_ignored, b.dtypeEnd,
   a.verdicts ++ b.verdicts, a.queries ++ b.queries,
   a.records ++ b.records, a.errOut ++ b.errOut,
   a.emptyDiag || b.emptyDiag⟩

/-- check_ignore_stdin_paths, lines 106 to 129: standard input is
modelled as the list of records already split on the selected
terminator.  Every record is optionally dequoted (newline mode only)
and then passed to check_ignore as a one-element pathspec. -/
def check_ignore_stdin_paths (O : Oracles) (opts : Opts) (pfx : Option Bytes) :
    List Bytes → Except String CIOut
  | [] => Except.ok ⟨0, DT_UNKNOWN, [], [], [], [], false⟩
  | l :: rest =>
    match stdin_line_path opts.null_term_line l with
    | Except.error m => Except.error m
    | Except.ok p =>
      match check_ignore O opts pfx [p] with
      | Except.error m => Except.error m
      | Except.ok r1 =>
        match check_ignore_stdin_paths O opts pfx rest with
        | Except.error m => Except.error m
        | Except.ok r2 => Except.ok (combineCI r1 r2)

/-- The observable outcome of a whole run of cmd_check_ignore,
including the process exit status. -/
structure RunOut where
  num_ignored : Nat
  verdicts : List (Option Exclude)
  queries : List (Bytes × Nat)
  records : List Bytes
  errOut : List String
  emptyDiag : Bool
  exit : Nat
deriving DecidableEq

/-- cmd_check_ignore, lines 131 to 176: option validation in source
order, the index read (index_ok models whether read_cache succeeds),
dispatch to direct or streaming mode, and exit status !num_ignored. -/
def cmd_check_ignore (O : Oracles) (opts : Opts) (pfx : Option Bytes)
    (argv : List Bytes) (stdinLines : List Bytes) (index_ok : Bool) :
    Except String RunOut :=
  if opts.stdin_paths ∧ 0 < argv.length then
    Except.error "cannot specify pathnames with --stdin"
  else if ¬opts.stdin_paths ∧ opts.null_term_line then
    Except.error "-z only makes sense with --stdin"
  else if ¬opts.stdin_paths ∧ argv.length = 0 then
    Except.error "no path specified"
  else if opts.quiet ∧ 1 < argv.length then
    Except.error "--quiet is only valid with a single pathname"
  else if opts.quiet ∧ opts.verbose then
    Except.error "cannot have both --quiet and --verbose"
  else if opts.show_non_matching ∧ ¬opts.verbose then
    Except.error "--non-matching is only valid with --verbose"
  else if ¬index_ok then
    Except.error "index file corrupt"
  else
    match (if opts.stdin_paths then check_ignore_stdin_paths O opts pfx stdinLines
           else check_ignore O opts pfx argv) with
    | Except.error m => Except.error m
    | Except.ok r =>
      Except.ok ⟨r.num_ignored, r.verdicts, r.queries, r.records,
                 r.errOut, r.emptyDiag,
                 if r.num_ignored = 0 then 1 else 0⟩

/-- Projection helpers over fallible results. -/
def isErr {α : Type} (x : Except String α) : Bool :=
  match x with
  | Except.error _ => true
  | Except.ok _ => false

/-- The verdict component of a step outcome; none when the step died. -/
def stepVerdictOf (x : Except String StepOut) : Option Exclude :=
  match x with
  | Except.ok s => s.exclude
  | Except.error _ => none

/-- The query log of a step outcome; empty when the step died. -/
def stepQueriesOf (x : Except String StepOut) : List (Bytes × Nat) :=
  match x with
  | Except.ok s => s.queries
  | Except.error _ => []

/-- Whether the empty-pathspec branch was taken; a run that died never
reached that branch inside the call that died, because the branch
returns successfully at once. -/
def emptyDiagOf (x : Except String CIOut) : Bool :=
  match x with
  | Except.ok r => r.emptyDiag
  | Except.error _ => false

/-- Whether the empty-pathspec branch was taken during a whole run. -/
def runEmptyDiagOf (x : Except String RunOut) : Bool :=
  match x with
  | Except.ok r => r.emptyDiag
  | Except.error _ => false

/-- The verdict recorded for position i of a batch outcome. -/
def verdictAt (x : Except String CIOut) (i : Nat) : Option Exclude :=
  match x with
  | Except.ok r => r.verdicts.getD i none
  | Except.error _ => none

/-- The number of Matched verdicts in a verdict list. -/
def countMatched (vs : List (Option Exclude)) : Nat :=
  (vs.filter fun v => v.isSome).length

/-- The emission condition of the spec (section 4.4): emission is
skipped when quiet is set, or when the verdict is NoMatch and
showNonMatching is false. -/
def spec_should_emit (opts : Opts) (v : Option Exclude) : Prop :=
  opts.quiet = false ∧ (v.isSome = true ∨ opts.show_non_matching = true)

instance (opts : Opts) (v : Option Exclude) : Decidable (spec_should_emit opts v) := by
  unfold spec_should_emit
  infer_instance

/-- The verbose NUL-terminated layout, written from the words of the
spec table (section 4.4, last row): sourceFile NUL line number in
decimal NUL optional bang, pattern, optional slash NUL path NUL when
matched; three empty NUL-terminated fields then path NUL otherwise. -/
def spec_verbose_null_record (path : Bytes) (v : Option Exclude) : Bytes :=
  match v with
  | some e =>
    e.src ++ [0] ++ decBytes e.srcpos ++ [0]
      ++ (if e.negative then [33] else []) ++ e.pattern
      ++ (if e.mustbedir then [47] else [])
      ++ [0] ++ path ++ [0]
  | none => [0] ++ [0] ++ [0] ++ path ++ [0]

/-- The verbose newline layout, written from the words of the spec
table (section 4.4, third row): quoted source file, colon, line
number, colon, optional bang, pattern, optional slash, tab, quoted
path, newline when matched; colon colon tab quoted path newline
otherwise. -/
def spec_verbose_line_record (path : Bytes) (v : Option Exclude) : Bytes :=
  match v with
  | some e =>
    quote_c_style e.src ++ [58] ++ decBytes e.srcpos ++ [58]
      ++ (if e.negative then [33] else []) ++ e.pattern
      ++ (if e.mustbedir then [47] else [])
      ++ [9] ++ quote_c_style path ++ [10]
  | none => [58] ++ [58] ++ [9] ++ quote_c_style path ++ [10]

/-- The four invalid option combinations of the spec (section 3). -/
def invalid_combo (opts : Opts) (argv : List Bytes) : Prop :=
  (opts.null_term_line = true ∧ opts.stdin_paths = false)
  ∨ (opts.stdin_paths = true ∧ argv ≠ [])
  ∨ (opts.quiet = true ∧ (1 < argv.length ∨ opts.verbose = true))
  ∨ (opts.show_non_matching = true ∧ opts.verbose = false)

/-- A sample matching rule used by concrete witnesses. -/
def rule0 : Exclude := ⟨[103], 1, [42], false, false⟩

/-- A deterministic test oracle: the prefix join is the identity,
boundary validation always passes, the path consisting of byte 116 is
tracked, and the path consisting of byte 98 matches rule0. -/
def Otest : Oracles :=
  ⟨fun _ p => p,
   fun p => Except.ok p,
   fun _ _ => none,
   fun ps => ps.map (fun p => p == [116]),
   fun p d => if p == [98] then (some rule0, d) else (none, d)⟩

/-- A test oracle whose verdict depends on the dtype hint: with the
hint at DT_UNKNOWN every path matches rule0 and the hint becomes 1;
with any other hint nothing matches. -/
def Obug : Oracles :=
  ⟨fun _ p => p,
   fun p => Except.ok p,
   fun _ _ => none,
   fun ps => ps.map (fun _ => false),
   fun _ d => if d = 0 then (some rule0, 1) else (none, d)⟩

/-- Default options: all five flags off. -/
def opts0 : Opts := ⟨false, false, false, false, false⟩

/-- Options for streaming newline mode. -/
def optsN : Opts := ⟨false, false, true, false, false⟩

/-- Options for streaming NUL-terminated mode. -/
def optsZ : Opts := ⟨false, false, true, true, false⟩

/-- Options with quiet and verbose both set, an invalid combination. -/
def optsQV : Opts := ⟨true, true, false, false, false⟩

instance (opts : Opts) (argv : List Bytes) : Decidable (invalid_combo opts argv) := by
  unfold invalid_combo
  infer_instance

/-- The outcome of the run cmd_check_ignore Otest opts0 none [[98]] [] true,
used as a concrete witness. -/
def r98 : RunOut := ⟨1, [some rule0], [([98], 0)], [[98, 10]], [], false, 0⟩

/-- Lemma: a byte that is neither the double quote nor the backslash is
copied verbatim by the unquoting scan. -/
theorem unq_plain (b : Nat) (h34 : b ≠ 34) (h92 : b ≠ 92) (rest : Bytes) :
    unq (b :: rest) = (unq rest).map (fun t => b :: t) := by
  rw [unq.eq_def]
  simp only [if_neg h34, if_neg h92]

/-- Lemma: the unquoting scan inverts the escape sequence of any byte
below 256 that needs escaping. -/
theorem unq_escape (b : Nat) (hb : b < 256) (hn : cq_needs b = true) (rest : Bytes) :
    unq (cq_escape b ++ rest) = (unq rest).map (fun t => b :: t) := by
  by_cases h34 : b = 34
  · subst h34
    show unq (92 :: 34 :: rest) = Option.map (fun t => 34 :: t) (unq rest)
    rw [unq.eq_def]; norm_num
  by_cases h92 : b = 92
  · subst h92
    show unq (92 :: 92 :: rest) = Option.map (fun t => 92 :: t) (unq rest)
    rw [unq.eq_def]; norm_num
  by_cases h7 : b = 7
  · subst h7
    show unq (92 :: 97 :: rest) = Option.map (fun t => 7 :: t) (unq rest)
    rw [unq.eq_def]; norm_num
  by_cases h8 : b = 8
  · subst h8
    show unq (92 :: 98 :: rest) = Option.map (fun t => 8 :: t) (unq rest)
    rw [unq.eq_def]; norm_num
  by_cases h9 : b = 9
  · subst h9
    show unq (92 :: 116 :: rest) = Option.map (fun t => 9 :: t) (unq rest)
    rw [unq.eq_def]; norm_num
  by_cases h10 : b = 10
  · subst h10
    show unq (92 :: 110 :: rest) = Option.map (fun t => 10 :: t) (unq rest)
    rw [unq.eq_def]; norm_num
  by_cases h11 : b = 11
  · subst h11
    show unq (92 :: 118 :: rest) = Option.map (fun t => 11 :: t) (unq rest)
    rw [unq.eq_def]; norm_num
  by_cases h12 : b = 12
  · subst h12
    show unq (92 :: 102 :: rest) = Option.map (fun t => 12 :: t) (unq rest)
    rw [unq.eq_def]; norm_num
  by_cases h13 : b = 13
  · subst h13
    show unq (92 :: 114 :: rest) = Option.map (fun t => 13 :: t) (unq rest)
    rw [unq.eq_def]; norm_num
  simp only [cq_escape, if_neg h34, if_neg h92, if_neg h7, if_neg h8, if_neg h9,
    if_neg h10, if_neg h11, if_neg h12, if_neg h13, List.cons_append, List.nil_append]
  simp only [unq]
  rw [if_pos trivial]
  rw [if_neg (by omega : ¬48 + b / 64 % 8 = 34), if_neg (by omega : ¬48 + b / 64 % 8 = 92),
    if_neg (by omega : ¬48 + b / 64 % 8 = 97), if_neg (by omega : ¬48 + b / 64 % 8 = 98),
    if_neg (by omega : ¬48 + b / 64 % 8 = 116), if_neg (by omega : ¬48 + b / 64 % 8 = 110),
    if_neg (by omega : ¬48 + b / 64 % 8 = 118), if_neg (by omega : ¬48 + b / 64 % 8 = 102),
    if_neg (by omega : ¬48 + b / 64 % 8 = 114),
    if_pos (by omega : 48 ≤ 48 + b / 64 % 8 ∧ 48 + b / 64 % 8 ≤ 55),
    if_pos (by omega : 48 ≤ 48 + b / 8 % 8 ∧ 48 + b / 8 % 8 ≤ 55
      ∧ 48 ≤ 48 + b % 8 ∧ 48 + b % 8 ≤ 55)]
  have hv : (48 + b / 64 % 8 - 48) * 64 + (48 + b / 8 % 8 - 48) * 8 + (48 + b % 8 - 48) = b := by
    omega
  simp only [hv]
  norm_num

/-- Lemma: unquoting the escaped body of a byte string followed by any
remainder unquotes the remainder and prepends the original bytes. -/
theorem unq_quote_body (p : Bytes) (h : ∀ b ∈ p, b < 256) (rest : Bytes) :
    unq (quote_body p ++ rest) = (unq rest).map (fun t => p ++ t) := by
  induction p with
  | nil => simp [quote_body]
  | cons b bs ih =>
    have hb : b < 256 := h b (by simp)
    have hbs : ∀ x ∈ bs, x < 256 := fun x hx => h x (by simp [hx])
    simp only [quote_body, List.append_assoc]
    by_cases hc : cq_needs b
    · rw [if_pos hc, unq_escape b hb hc, ih hbs]
      simp only [Option.map_map]
      rfl
    · have hnb : cq_needs b = false := by simpa using hc
      have h34 : b ≠ 34 := by
        intro hx; subst hx; simp [cq_needs] at hnb
      have h92 : b ≠ 92 := by
        intro hx; subst hx; simp [cq_needs] at hnb
      rw [if_neg (by simp [hnb]), List.singleton_append, unq_plain b h34 h92, ih hbs]
      simp only [Option.map_map]
      rfl

/-- Lemma: the emission guard of check_ignore, written with the Bool
flags of the source, agrees with the emission condition of the spec. -/
theorem emit_records_eq (opts : Opts) (path : Bytes) (v : Option Exclude) :
    (if !opts.quiet && (v.isSome || opts.show_non_matching)
     then [output_exclude opts path v] else [])
      = if spec_should_emit opts v then [output_exclude opts path v] else [] := by
  by_cases hs : spec_should_emit opts v
  · rw [if_pos hs, if_pos]
    obtain ⟨h1, h2⟩ := hs
    simp [h1]
    rcases h2 with h2 | h2 <;> simp [h2]
  · rw [if_neg hs, if_neg]
    intro hb
    apply hs
    simp only [Bool.and_eq_true, Bool.or_eq_true, Bool.not_eq_true'] at hb
    exact ⟨hb.1, hb.2⟩

/-- Lemma: along the loop of check_ignore, num_ignored counts exactly
the Matched verdicts, and the loop itself emits no stderr diagnostic
and never takes the empty-pathspec branch. -/
theorem loop_count (O : Oracles) (opts : Opts) (pfx : Option Bytes) (seen : List Bool) :
    ∀ (ps : List Bytes) (i dtype : Nat) (r : CIOut),
      check_ignore_loop O opts pfx seen ps i dtype = Except.ok r →
      r.num_ignored = countMatched r.verdicts ∧ r.errOut = [] ∧ r.emptyDiag = false := by
  intro ps
  induction ps with
  | nil =>
    intro i dtype r h
    simp only [check_ignore_loop] at h
    cases h
    simp [countMatched]
  | cons p rest ih =>
    intro i dtype r h
    cases hstep : check_ignore_step O opts pfx p (seen.getD i false) dtype with
    | error m =>
      simp only [check_ignore_loop, hstep] at h
      cases h
    | ok st =>
      cases hrec : check_ignore_loop O opts pfx seen rest (i + 1) st.dtype with
      | error m =>
        simp only [check_ignore_loop, hstep, hrec] at h
        cases h
      | ok r2 =>
        simp only [check_ignore_loop, hstep, hrec, Except.ok.injEq] at h
        subst h
        obtain ⟨h1, h2, h3⟩ := ih (i + 1) st.dtype r2 hrec
        refine ⟨?_, h2, h3⟩
        cases hx : st.exclude.isSome <;>
          simp [countMatched, List.filter_cons, hx, h1] <;> omega

/-- Lemma: check_ignore satisfies the same count identity. -/
theorem check_ignore_count (O : Oracles) (opts : Opts) (pfx : Option Bytes)
    (ps : List Bytes) (r : CIOut) (h : check_ignore O opts pfx ps = Except.ok r) :
    r.num_ignored = countMatched r.verdicts := by
  simp only [check_ignore] at h
  split at h
  · cases h; simp [countMatched]
  · exact (loop_count O opts pfx _ ps 0 DT_UNKNOWN r h).1

/-- Lemma: the streaming loop satisfies the same count identity. -/
theorem stdin_count (O : Oracles) (opts : Opts) (pfx : Option Bytes) :
    ∀ (ls : List Bytes) (r : CIOut),
      check_ignore_stdin_paths O opts pfx ls = Except.ok r →
      r.num_ignored = countMatched r.verdicts := by
  intro ls
  induction ls with
  | nil =>
    intro r h
    simp only [check_ignore_stdin_paths] at h
    cases h
    simp [countMatched]
  | cons l rest ih =>
    intro r h
    cases hlp : stdin_line_path opts.null_term_line l with
    | error m =>
      simp only [check_ignore_stdin_paths, hlp] at h
      cases h
    | ok p =>
      cases h1 : check_ignore O opts pfx [p] with
      | error m =>
        simp only [check_ignore_stdin_paths, hlp, h1] at h
        cases h
      | ok r1 =>
        cases h2 : check_ignore_stdin_paths O opts pfx rest with
        | error m =>
          simp only [check_ignore_stdin_paths, hlp, h1, h2] at h
          cases h
        | ok r2 =>
          simp only [check_ignore_stdin_paths, hlp, h1, h2, Except.ok.injEq] at h
          subst h
          have ha := check_ignore_count O opts pfx [p] r1 h1
          have hb := ih r2 h2
          simp only [combineCI, countMatched, List.filter_append, List.length_append] at ha hb ⊢
          omega

/-- Lemma: the loop never takes the empty-pathspec branch. -/
theorem loop_flag (O : Oracles) (opts : Opts) (pfx : Option Bytes) (seen : List Bool) :
    ∀ (ps : List Bytes) (i dtype : Nat),
      emptyDiagOf (check_ignore_loop O opts pfx seen ps i dtype) = false := by
  intro ps i dtype
  cases h : check_ignore_loop O opts pfx seen ps i dtype with
  | error m => rfl
  | ok r => exact (loop_count O opts pfx seen ps i dtype r h).2.2 ▸ rfl

/-- Lemma: a check_ignore call on a non-empty pathspec never takes the
empty-pathspec branch. -/
theorem check_ignore_flag (O : Oracles) (opts : Opts) (pfx : Option Bytes)
    (ps : List Bytes) (h : ps ≠ []) :
    emptyDiagOf (check_ignore O opts pfx ps) = false := by
  simp only [check_ignore]
  rw [if_neg (by simpa using h)]
  exact loop_flag O opts pfx _ ps 0 DT_UNKNOWN

/-- Lemma: the streaming loop never takes the empty-pathspec branch:
every line, even an empty one, becomes a one-element pathspec. -/
theorem stdin_flag (O : Oracles) (opts : Opts) (pfx : Option Bytes) :
    ∀ ls : List Bytes, emptyDiagOf (check_ignore_stdin_paths O opts pfx ls) = false := by
  intro ls
  induction ls with
  | nil => rfl
  | cons l rest ih =>
    cases hlp : stdin_line_path opts.null_term_line l with
    | error m => simp [check_ignore_stdin_paths, hlp, emptyDiagOf]
    | ok p =>
      cases h1 : check_ignore O opts pfx [p] with
      | error m => simp [check_ignore_stdin_paths, hlp, h1, emptyDiagOf]
      | ok r1 =>
        cases h2 : check_ignore_stdin_paths O opts pfx rest with
        | error m => simp [check_ignore_stdin_paths, hlp, h1, h2, emptyDiagOf]
        | ok r2 =>
          have f1 : r1.emptyDiag = false := by
            have hx := check_ignore_flag O opts pfx [p] (by simp)
            rw [h1] at hx
            exact hx
          have f2 : r2.emptyDiag = false := by
            rw [h2] at ih
            exact ih
          simp [check_ignore_stdin_paths, hlp, h1, h2, emptyDiagOf, combineCI, f1, f2]

/-- Lemma: no whole run ever takes the empty-pathspec branch. -/
theorem cmd_flag (O : Oracles) (opts : Opts) (pfx : Option Bytes)
    (argv lines : List Bytes) (index_ok : Bool) :
    runEmptyDiagOf (cmd_check_ignore O opts pfx argv lines index_ok) = false := by
  simp only [cmd_check_ignore]
  split
  · rfl
  split
  · rfl
  split
  · rfl
  split
  · rfl
  split
  · rfl
  split
  · rfl
  split
  · rfl
  rename_i h1 h2 h3 h4 h5 h6 h7
  cases hd : (if opts.stdin_paths then check_ignore_stdin_paths O opts pfx lines
              else check_ignore O opts pfx argv) with
  | error m => rfl
  | ok r =>
    have hflag : r.emptyDiag = false := by
      by_cases hsp : opts.stdin_paths
      · rw [if_pos hsp] at hd
        have := stdin_flag O opts pfx lines
        rw [hd] at this
        exact this
      · rw [if_neg hsp] at hd
        have hne : argv ≠ [] := by
          intro hx
          exact h3 ⟨by simpa using hsp, by simp [hx]⟩
        have := check_ignore_flag O opts pfx argv hne
        rw [hd] at this
        exact this
    simp [runEmptyDiagOf, hflag]

/-- C1: for every path in a batch, a path flagged as tracked by the
index membership filter gets the NoMatch verdict (none) and the
ignore-rule oracle is not queried at all (the query log of the step is
empty); a non-tracked path gets exactly the verdict of
last_exclude_matching at the canonical (prefix-joined and
boundary-validated) form of the path, queried with the current
file-type hint. -/
theorem c1_tracked_bypasses_oracle (O : Oracles) (opts : Opts) (pfx : Option Bytes)
    (path fp : Bytes) (dtype : Nat)
    (hg : O.check_path_for_gitlink (O.prefix_path pfx path) = Except.ok fp)
    (hs : O.die_if_path_beyond_symlink fp pfx = none) :
    (stepVerdictOf (check_ignore_step O opts pfx path true dtype) = none
      ∧ stepQueriesOf (check_ignore_step O opts pfx path true dtype) = [])
    ∧ (stepVerdictOf (check_ignore_step O opts pfx path false dtype)
         = (O.last_exclude_matching fp dtype).1
      ∧ stepQueriesOf (check_ignore_step O opts pfx path false dtype) = [(fp, dtype)]) := by
  simp [check_ignore_step, hg, hs, stepVerdictOf, stepQueriesOf]

/-- Witness for C1 at the concrete oracle Otest and the path [98]. -/
theorem c1_tracked_bypasses_oracle_witness :
    (Otest.check_path_for_gitlink (Otest.prefix_path none [98]) = Except.ok [98]
      ∧ Otest.die_if_path_beyond_symlink [98] none = none)
    ∧ ((stepVerdictOf (check_ignore_step Otest opts0 none [98] true 0) = none
        ∧ stepQueriesOf (check_ignore_step Otest opts0 none [98] true 0) = [])
      ∧ (stepVerdictOf (check_ignore_step Otest opts0 none [98] false 0)
           = (Otest.last_exclude_matching [98] 0).1
        ∧ stepQueriesOf (check_ignore_step Otest opts0 none [98] false 0) = [([98], 0)])) :=
  ⟨⟨rfl, rfl⟩, c1_tracked_bypasses_oracle Otest opts0 none [98] [98] 0 rfl rfl⟩

/-- C2: in every successful run, num_ignored equals the number of
Matched verdicts over all batches (verdicts are recorded regardless of
quiet or the emission rules), and the exit status is the C negation of
num_ignored: 0 exactly when at least one path matched, 1 otherwise. -/
theorem c2_count_and_exit (O : Oracles) (opts : Opts) (pfx : Option Bytes)
    (argv stdinLines : List Bytes) (index_ok : Bool) (r : RunOut)
    (h : cmd_check_ignore O opts pfx argv stdinLines index_ok = Except.ok r) :
    r.num_ignored = countMatched r.verdicts
    ∧ r.exit = (if r.num_ignored = 0 then 1 else 0)
    ∧ (r.exit = 0 ↔ 0 < r.num_ignored) := by
  simp only [cmd_check_ignore] at h
  split at h
  · cases h
  split at h
  · cases h
  split at h
  · cases h
  split at h
  · cases h
  split at h
  · cases h
  split at h
  · cases h
  split at h
  · cases h
  cases hd : (if opts.stdin_paths then check_ignore_stdin_paths O opts pfx stdinLines
              else check_ignore O opts pfx argv) with
  | error m => rw [hd] at h; cases h
  | ok r0 =>
    rw [hd] at h
    cases h
    have hcount : r0.num_ignored = countMatched r0.verdicts := by
      by_cases hsp : opts.stdin_paths
      · rw [if_pos hsp] at hd
        exact stdin_count O opts pfx stdinLines r0 hd
      · rw [if_neg hsp] at hd
        exact check_ignore_count O opts pfx argv r0 hd
    refine ⟨hcount, rfl, ?_⟩
    by_cases hz : r0.num_ignored = 0 <;> simp [hz] <;> omega

/-- Witness for C2 at a concrete run with one matching path. -/
theorem c2_count_and_exit_witness :
    cmd_check_ignore Otest opts0 none [[98]] [] true = Except.ok r98
    ∧ (r98.num_ignored = countMatched r98.verdicts
      ∧ r98.exit = (if r98.num_ignored = 0 then 1 else 0)
      ∧ (r98.exit = 0 ↔ 0 < r98.num_ignored)) :=
  ⟨by decide, c2_count_and_exit Otest opts0 none [[98]] [] true r98 (by decide)⟩

/-- C3: for every decided path, one record is emitted exactly when
quiet is off and either the verdict is Matched or showNonMatching is
on; the emitted record is rendered from the original raw path argument
(path), not from the canonical form (fp). -/
theorem c3_emission (O : Oracles) (opts : Opts) (pfx : Option Bytes)
    (path fp : Bytes) (seen_i : Bool) (dtype : Nat) (st : StepOut)
    (hg : O.check_path_for_gitlink (O.prefix_path pfx path) = Except.ok fp)
    (hs : O.die_if_path_beyond_symlink fp pfx = none)
    (hst : check_ignore_step O opts pfx path seen_i dtype = Except.ok st) :
    st.records = if spec_should_emit opts st.exclude
                 then [output_exclude opts path st.exclude] else [] := by
  simp only [check_ignore_step, hg, hs] at hst
  cases hst
  exact emit_records_eq opts path _

/-- Witness for C3 at a concrete matching step with default options. -/
theorem c3_emission_witness :
    (Otest.check_path_for_gitlink (Otest.prefix_path none [98]) = Except.ok [98]
      ∧ Otest.die_if_path_beyond_symlink [98] none = none
      ∧ check_ignore_step Otest opts0 none [98] false 0
          = Except.ok ⟨some rule0, 0, [([98], 0)], [[98, 10]]⟩)
    ∧ (⟨some rule0, 0, [([98], 0)], [[98, 10]]⟩ : StepOut).records
        = (if spec_should_emit opts0 (⟨some rule0, 0, [([98], 0)], [[98, 10]]⟩ : StepOut).exclude
           then [output_exclude opts0 [98]
                  (⟨some rule0, 0, [([98], 0)], [[98, 10]]⟩ : StepOut).exclude]
           else []) :=
  ⟨⟨rfl, rfl, by decide⟩,
   c3_emission Otest opts0 none [98] [98] false 0 _ rfl rfl (by decide)⟩

/-- C4: in verbose NUL-terminated mode the record layout is exactly
the one of the spec table: source file NUL decimal line NUL optional
bang, pattern, optional slash NUL path NUL when matched, and three
empty NUL-terminated fields followed by path NUL when unmatched. -/
theorem c4_verbose_null_layout (q sp nm : Bool) (path : Bytes) (v : Option Exclude) :
    output_exclude ⟨q, true, sp, true, nm⟩ path v = spec_verbose_null_record path v := by
  cases v with
  | none => simp [output_exclude, spec_verbose_null_record]
  | some e => simp [output_exclude, spec_verbose_null_record]

/-- C5: in verbose newline mode the record layout is exactly the one
of the spec table: quoted source file, colon, line number, colon,
optional bang, pattern, optional slash, tab, quoted path, newline when
matched, and colon colon tab quoted path newline when unmatched. -/
theorem c5_verbose_line_layout (q sp nm : Bool) (path : Bytes) (v : Option Exclude) :
    output_exclude ⟨q, true, sp, false, nm⟩ path v = spec_verbose_line_record path v := by
  cases v with
  | none => simp [output_exclude, spec_verbose_line_record]
  | some e => simp [output_exclude, spec_verbose_line_record]

/-- C6: each of the four invalid option combinations makes the run
abort with a fatal error; the error result carries no verdicts, no
oracle queries and no output, so nothing is normalized, queried or
printed before the rejection. -/
theorem c6_option_validation (O : Oracles) (opts : Opts) (pfx : Option Bytes)
    (argv lines : List Bytes) (index_ok : Bool)
    (h : invalid_combo opts argv) :
    isErr (cmd_check_ignore O opts pfx argv lines index_ok) = true := by
  simp only [cmd_check_ignore]
  split
  · rfl
  split
  · rfl
  split
  · rfl
  split
  · rfl
  split
  · rfl
  split
  · rfl
  split
  · rfl
  rename_i h1 h2 h3 h4 h5 h6 h7
  exfalso
  rcases h with ⟨hn, hsp⟩ | ⟨hsp, ha⟩ | ⟨hq, hqq⟩ | ⟨hm, hv⟩
  · exact h2 ⟨by simp [hsp], hn⟩
  · exact h1 ⟨hsp, List.length_pos.mpr ha⟩
  · rcases hqq with hlen | hverb
    · exact h4 ⟨hq, hlen⟩
    · exact h5 ⟨hq, hverb⟩
  · exact h6 ⟨hm, by simp [hv]⟩

/-- Witness for C6 at the quiet-and-verbose combination. -/
theorem c6_option_validation_witness :
    invalid_combo optsQV [[97]]
    ∧ isErr (cmd_check_ignore Otest optsQV none [[97]] [] true) = true :=
  ⟨by decide, c6_option_validation Otest optsQV none [[97]] [] true (by decide)⟩

/-- C7: in newline streaming mode a line whose first byte is the
double quote is passed through the unquoting routine, and a line that
fails unquoting aborts the whole run with the fatal error
"line is badly quoted"; in NUL-terminated streaming mode no dequoting
is ever applied, even to a line beginning with the double quote. -/
theorem c7_stdin_dequoting (O : Oracles) (opts : Opts) (pfx : Option Bytes)
    (l : Bytes) (rest : List Bytes) :
    (opts.null_term_line = false → l.head? = some 34 →
      stdin_line_path opts.null_term_line l
        = (match unquote_c_style l with
           | none => Except.error "line is badly quoted"
           | some p => Except.ok p))
    ∧ (opts.null_term_line = true → stdin_line_path opts.null_term_line l = Except.ok l)
    ∧ (opts.null_term_line = false → l.head? = some 34 → unquote_c_style l = none →
        check_ignore_stdin_paths O opts pfx (l :: rest)
          = Except.error "line is badly quoted") := by
  refine ⟨?_, ?_, ?_⟩
  · intro hz hh
    simp [stdin_line_path, hz, hh]
  · intro hz
    simp [stdin_line_path, hz]
  · intro hz hh hu
    simp only [check_ignore_stdin_paths]
    simp [stdin_line_path, hz, hh, hu]

/-- Witness for C7: the line [34, 92] (a double quote followed by a
lone backslash) is badly quoted and aborts the newline-mode run, while
NUL-terminated mode takes it verbatim. -/
theorem c7_stdin_dequoting_witness :
    (optsN.null_term_line = false ∧ ([34, 92] : Bytes).head? = some 34
      ∧ unquote_c_style [34, 92] = none ∧ optsZ.null_term_line = true)
    ∧ stdin_line_path optsN.null_term_line [34, 92]
        = (match unquote_c_style [34, 92] with
           | none => Except.error "line is badly quoted"
           | some p => Except.ok p)
    ∧ stdin_line_path optsZ.null_term_line [34, 92] = Except.ok [34, 92]
    ∧ check_ignore_stdin_paths Otest optsN none [[34, 92]]
        = Except.error "line is badly quoted" :=
  ⟨⟨rfl, rfl, by decide, rfl⟩,
   (c7_stdin_dequoting Otest optsN none [34, 92] []).1 rfl rfl,
   (c7_stdin_dequoting Otest optsZ none [34, 92] []).2.1 rfl,
   (c7_stdin_dequoting Otest optsN none [34, 92] []).2.2 rfl rfl (by decide)⟩

/-- Counterexample to C8 as stated: with the oracle Obug, whose
verdict depends on the file-type hint it receives and which updates
the hint, the same non-tracked path [98], with the same canonical form
and the same membership flag, receives the verdict some rule0 when it
is the only path of the batch, but the verdict none when the path [97]
precedes it in the batch: the dtype variable of check_ignore is
declared once, outside the per-path loop (line 71), and its address is
passed to every oracle call, so matching state is carried from one
path decision to the next. -/
theorem c8_claim_counterexample :
    verdictAt (check_ignore Obug opts0 none [[98]]) 0 = some rule0
    ∧ verdictAt (check_ignore Obug opts0 none [[97], [98]]) 1 = none := by
  decide

/-- C8 amended: the verdict of one decision is a pure function of the
canonical form of the path, its membership flag, and the file-type
hint in effect at that decision; the hint starts at DT_UNKNOWN for
each batch and may be updated by every oracle call, so a preceding
path can influence a later verdict, but only through the threaded
hint.  In particular the verdict does not depend on the option flags,
the raw spelling of the argument, or the invocation prefix. -/
theorem c8_verdict_hint_dependence (O : Oracles) (opts opts2 : Opts)
    (pfx pfx2 : Option Bytes) (path path2 fp : Bytes) (s : Bool) (dtype : Nat)
    (hg : O.check_path_for_gitlink (O.prefix_path pfx path) = Except.ok fp)
    (hs : O.die_if_path_beyond_symlink fp pfx = none)
    (hg2 : O.check_path_for_gitlink (O.prefix_path pfx2 path2) = Except.ok fp)
    (hs2 : O.die_if_path_beyond_symlink fp pfx2 = none) :
    stepVerdictOf (check_ignore_step O opts pfx path s dtype)
      = stepVerdictOf (check_ignore_step O opts2 pfx2 path2 s dtype)
    ∧ stepVerdictOf (check_ignore_step O opts pfx path s dtype)
      = (if s then none else (O.last_exclude_matching fp dtype).1) := by
  cases s <;> simp [check_ignore_step, hg, hs, hg2, hs2, stepVerdictOf]

/-- Witness for the amended C8 at the concrete oracle Otest, two
different raw spellings with the same canonical form. -/
theorem c8_verdict_hint_dependence_witness :
    (Otest.check_path_for_gitlink (Otest.prefix_path none [98]) = Except.ok [98]
      ∧ Otest.die_if_path_beyond_symlink [98] none = none
      ∧ Otest.check_path_for_gitlink (Otest.prefix_path (some []) [98]) = Except.ok [98]
      ∧ Otest.die_if_path_beyond_symlink [98] (some []) = none)
    ∧ (stepVerdictOf (check_ignore_step Otest opts0 none [98] false 0)
        = stepVerdictOf (check_ignore_step Otest optsN (some []) [98] false 0)
      ∧ stepVerdictOf (check_ignore_step Otest opts0 none [98] false 0)
        = (if false then none else (Otest.last_exclude_matching [98] 0).1)) :=
  ⟨⟨rfl, rfl, rfl, rfl⟩,
   c8_verdict_hint_dependence Otest opts0 optsN none (some []) [98] [98] [98] false 0
     rfl rfl rfl rfl⟩

/-- C9: the quote and unquote round-trip: dequoting the quoted form of
any path of bytes, exactly as a newline-mode output record carries it
and as the streaming reader dequotes it, yields the original bytes. -/
theorem c9_quote_roundtrip (p : Bytes) (h : ∀ b ∈ p, b < 256) :
    stdin_line_path false (quote_c_style p) = Except.ok p := by
  by_cases hq : p.any cq_needs
  · rw [quote_c_style, if_pos hq]
    simp only [stdin_line_path, List.cons_append, List.head?_cons]
    rw [if_pos (by simp)]
    simp only [unquote_c_style, List.nil_append]
    rw [unq_quote_body p h [34]]
    simp [unq]
  · rw [quote_c_style, if_neg hq]
    cases p with
    | nil => rfl
    | cons b bs =>
      have hb : cq_needs b = false := by
        cases hcb : cq_needs b
        · rfl
        · exact absurd (by simp [List.any_cons, hcb]) hq
      have h34 : b ≠ 34 := by
        intro hx
        subst hx
        simp [cq_needs] at hb
      simp [stdin_line_path, h34]

/-- Witness for C9 at a path needing several kinds of escaping. -/
theorem c9_quote_roundtrip_witness :
    (∀ b ∈ ([34, 7, 200, 97] : Bytes), b < 256)
    ∧ stdin_line_path false (quote_c_style [34, 7, 200, 97]) = Except.ok [34, 7, 200, 97] :=
  ⟨by decide, c9_quote_roundtrip [34, 7, 200, 97] (by decide)⟩

/-- C10: the empty-pathspec branch of check_ignore is unreachable from
the command entry point: no run, direct or streaming, ever takes it;
in direct mode an empty argument list is rejected earlier with the
fatal error "no path specified" (when -z is absent; with -z the run
aborts even earlier on the -z validation); and every check_ignore call
on a non-empty pathspec, in particular the one-element pathspec built
for every stdin line, empty line included, avoids the branch. -/
theorem c10_empty_pathspec_unreachable (O : Oracles) (opts : Opts) (pfx : Option Bytes)
    (argv lines : List Bytes) (index_ok : Bool) :
    runEmptyDiagOf (cmd_check_ignore O opts pfx argv lines index_ok) = false
    ∧ (opts.stdin_paths = false → opts.null_term_line = false → argv = [] →
        cmd_check_ignore O opts pfx argv lines index_ok
          = Except.error "no path specified")
    ∧ (∀ ps : List Bytes, ps ≠ [] → emptyDiagOf (check_ignore O opts pfx ps) = false) := by
  refine ⟨cmd_flag O opts pfx argv lines index_ok, ?_,
    fun ps hne => check_ignore_flag O opts pfx ps hne⟩
  intro hsp hz ha
  subst ha
  simp [cmd_check_ignore, hsp, hz]

/-- Witness for C10 at a concrete direct-mode run with no argument. -/
theorem c10_empty_pathspec_unreachable_witness :
    (opts0.stdin_paths = false ∧ opts0.null_term_line = false
      ∧ ([] : List Bytes) = [] ∧ ([116] : Bytes) :: [] ≠ [])
    ∧ runEmptyDiagOf (cmd_check_ignore Otest opts0 none [] [] true) = false
    ∧ cmd_check_ignore Otest opts0 none [] [] true = Except.error "no path specified"
    ∧ emptyDiagOf (check_ignore Otest opts0 none [[116]]) = false :=
  ⟨⟨rfl, rfl, rfl, by decide⟩,
   (c10_empty_pathspec_unreachable Otest opts0 none [] [] true).1,
   (c10_empty_pathspec_unreachable Otest opts0 none [] [] true).2.1 rfl rfl rfl,
   (c10_empty_pathspec_unreachable Otest opts0 none [] [] true).2.2 [[116]] (by decide)⟩

end CheckIgnore
